import Mathlib

/-!
Shallow embedding of the t10 bot lifecycle supervisor core
(src/core/runner.py, src/core/monitor.py, src/core/scheduler.py) and
theorems settling the specification's claims about it.

Machine conventions: timestamps are naturals (`time.time()` snapshots are
passed in explicitly as `now` arguments); the dynamic config dict is a
record of optional fields read through the source's `dict.get` defaults;
TinyDB tables are lists of rows, `update(fields, cond)` maps the listed
fields over every matching row and touches nothing else; the docker
client is modelled by the state of the single `t10_<name>` container an
operation works on, plus explicit outcome flags for the calls that can
fail; broad `except` handlers are modelled exactly where the source has
them.
-/

namespace T10

/-- The bot's `config.json` dict, restricted to the keys the supervisor
core reads; `none` models an absent key, read back through `dict.get`
with the source's default at each use site. -/
structure BotConfig where
  restart_on_crash : Option Bool := none
  max_retries : Option Nat := none
  retry_delay : Option Nat := none
  webhook_url : Option String := none
  auto_restart : Option Bool := none
deriving DecidableEq

/-- One row of the TinyDB `bots` table, as written by
`BotRunner._update_bot_record`, `BotRunner.stop_bot` and
`BotMonitor._handle_container_crash`. -/
structure BotRecord where
  name : String
  status : String
  config : BotConfig := {}
  started_at : Option Nat := none
  stopped_at : Option Nat := none
  crashed_at : Option Nat := none
  exit_code : Option Int := none
  nitrix_managed : Bool := true
deriving DecidableEq

/-- The `bots` table. -/
abbrev Store := List BotRecord

/-- TinyDB `table.get(Bot.name == name)`: first matching row. -/
def getBot (st : Store) (name : String) : Option BotRecord :=
  st.find? (fun r => r.name == name)

/-- TinyDB `table.update(fields, Bot.name == name)`: rewrite every
matching row with `f`, leave the rest untouched; no row is created. -/
def updateBots (st : Store) (name : String) (f : BotRecord → BotRecord) : Store :=
  st.map (fun r => if r.name == name then f r else r)

/-- Rows of the TinyDB `schedules` table (`BotScheduler.add_schedule`). -/
structure ScheduleRecord where
  bot_name : String
  schedule_time : String
  interval_minutes : Nat
  created_at : Nat
  last_run : Option Nat := none
  nitrix_managed : Bool := true
deriving DecidableEq

/-- The `schedules` table. -/
abbrev SStore := List ScheduleRecord

/-! ## Interval parsing (`BotScheduler._parse_schedule_time`) -/

/-- Python `str.strip()` on a character list. -/
def stripChars (cs : List Char) : List Char :=
  ((cs.dropWhile Char.isWhitespace).reverse.dropWhile Char.isWhitespace).reverse

/-- Numeric value of a digit run. -/
def digitsVal (ds : List Char) : Nat :=
  ds.foldl (fun acc c => acc * 10 + (c.toNat - '0'.toNat)) 0

/-- Unit conversion of `_parse_schedule_time`: the matched number is the
exact rational `num / scale` (`scale` the power of ten of the fraction
digits); `int(value)`, `int(value * 60)` and `int(value * 1440)` truncate
the non-negative value, which is Nat division here. -/
def unitMinutes (u : Char) (num scale : Nat) : Option Nat :=
  if u = 'm' then some (num / scale)
  else if u = 'h' then some (num * 60 / scale)
  else if u = 'd' then some (num * 1440 / scale)
  else none

/-- The anchored regex of `_parse_schedule_time`,
one or more digits, an optional dot with one or more digits, then a
single unit character and end of input. -/
def matchScheduleChars (cs : List Char) : Option Nat :=
  let p := cs.span Char.isDigit
  if p.1.isEmpty then none
  else
    match p.2 with
    | '.' :: afterDot =>
      let q := afterDot.span Char.isDigit
      if q.1.isEmpty then none
      else
        match q.2 with
        | [u] => unitMinutes u (digitsVal (p.1 ++ q.1)) (10 ^ q.1.length)
        | _ => none
    | [u] => unitMinutes u (digitsVal p.1) 1
    | _ => none

/-- `BotScheduler._parse_schedule_time`: lower-case, strip, match the
pattern, convert to whole minutes. -/
def parse_schedule_time (s : String) : Option Nat :=
  matchScheduleChars (stripChars (s.data.map Char.toLower))

/-- The interval validation `BotScheduler.add_schedule` applies to the
parsed value: Python `if not interval` rejects `None` and `0` alike, so
a parse that truncates to zero minutes is invalid as well. -/
def parse_interval (s : String) : Option Nat :=
  match parse_schedule_time s with
  | none => none
  | some 0 => none
  | some n => some n

/-! ## Lifecycle Supervisor (`BotRunner`) -/

/-- State of the docker container `t10_<name>` an operation works on:
`none` models a NotFound answer from the client, otherwise the
container's status string. -/
structure GatewayState where
  container : Option String := none
deriving DecidableEq

/-- `BotRunner._is_bot_running`: ask the docker client, status must be
`running`; NotFound means not running. -/
def is_bot_running (gw : GatewayState) : Bool :=
  match gw.container with
  | some s => s == "running"
  | none => false

/-- `BotRunner.stop_bot`: stop and remove the container (NotFound is
only a warning), then unconditionally update the stored record to
`stopped` with `stopped_at = now`. `stopRaises` models a non-NotFound
docker error from stop/remove, which jumps to the outer handler and
returns `False` before the table update runs. -/
def stop_bot (stopRaises : Bool) (gw : GatewayState) (st : Store)
    (name : String) (now : Nat) : GatewayState × Store × Bool :=
  match gw.container with
  | some _ =>
    if stopRaises then (gw, st, false)
    else
      (⟨none⟩,
       updateBots st name (fun r => { r with status := "stopped", stopped_at := some now }),
       true)
  | none =>
    (gw,
     updateBots st name (fun r => { r with status := "stopped", stopped_at := some now }),
     true)

/-- The environment one `BotRunner.start_bot` call sees: file-system
preconditions, the parsed config file, the token check, and whether the
docker build+run of `_start_docker_container` succeeds. -/
structure StartEnv where
  botDirExists : Bool := true
  configFile : Option BotConfig := some {}
  envFileExists : Bool := true
  token : Option String := none
  tokenValid : Bool := true
  dockerfileExists : Bool := true
  dockerRunOk : Bool := true
deriving DecidableEq

/-- `BotRunner._update_bot_record`: a TinyDB update on an existing row
overwrites the listed fields (name, status, config, started_at,
nitrix_managed) and retains the rest; otherwise a fresh row is inserted.
`started_at` is `now` when the new status is `running`, else `None`. -/
def update_bot_record (st : Store) (name status : String) (config : BotConfig)
    (now : Nat) : Store :=
  let sa : Option Nat := if status == "running" then some now else none
  if st.any (fun r => r.name == name) then
    updateBots st name (fun r =>
      { r with status := status, config := config, started_at := sa, nitrix_managed := true })
  else
    st ++ [{ name := name, status := status, config := config, started_at := sa }]

/-- `BotRunner.start_bot`: pre-flight checks (bot directory, config
file, env file, not already running per the gateway, token), then
`_start_docker_container` (dockerfile present, force-remove any stale
container, build, run). Only on full success is the record set to
`running`; every failure path leaves the store untouched. -/
def start_bot (env : StartEnv) (gw : GatewayState) (st : Store)
    (name : String) (now : Nat) : GatewayState × Store × Bool :=
  if !env.botDirExists then (gw, st, false) else
  match env.configFile with
  | none => (gw, st, false)
  | some config =>
    if !env.envFileExists then (gw, st, false)
    else if is_bot_running gw then (gw, st, false)
    else if env.token.isSome && !env.tokenValid then (gw, st, false)
    else if !env.dockerfileExists then (gw, st, false)
    else if env.dockerRunOk then
      (⟨some "running"⟩, update_bot_record st name "running" config now, true)
    else
      (⟨none⟩, st, false)

/-- `BotRunner.restart_bot`: `stop_bot`, a 2-second settle sleep, then
`start_bot`; a failing stop is logged but not fatal to the restart. -/
def restart_bot (env : StartEnv) (stopRaises : Bool) (gw : GatewayState)
    (st : Store) (name : String) (tStop tStart : Nat) : GatewayState × Store × Bool :=
  let r1 := stop_bot stopRaises gw st name tStop
  start_bot env r1.1 r1.2.1 name tStart

/-- Rows of the projection `BotRunner.list_bots` returns. -/
structure BotSummary where
  name : String
  status : String
  started_at : Option Nat
  uptime : String
deriving DecidableEq

/-- `BotRunner._calculate_uptime`: `N/A` without a start time, else an
hours/minutes string (a zero timestamp is falsy in Python and also reads
as `N/A`). -/
def calculate_uptime (started_at : Option Nat) (now : Nat) : String :=
  match started_at with
  | none => "N/A"
  | some t =>
    if t == 0 then "N/A"
    else
      let up := now - t
      let hours := up / 3600
      let minutes := up % 3600 / 60
      if hours > 0 then toString hours ++ "h " ++ toString minutes ++ "m"
      else toString minutes ++ "m"

/-- `BotRunner.list_bots`: project every row of the bots table; the
broad `except` handler turns any store error into the empty list. -/
def list_bots (ioError : Bool) (st : Store) (now : Nat) : List BotSummary :=
  if ioError then []
  else st.map (fun r =>
    { name := r.name, status := r.status, started_at := r.started_at,
      uptime := calculate_uptime r.started_at now })

/-! ## Health and Crash Monitor (`BotMonitor`) -/

/-- Externally visible actions of `BotMonitor._handle_bot_crash`:
restart attempts (counted from 0 as in `range(max_retries)`), backoff
sleeps, and webhook notifications with their severity string. -/
inductive MonEvent
  | attempt (k : Nat)
  | sleepFor (seconds : Nat)
  | notify (url : String) (severity : String)
deriving DecidableEq

/-- What one restart attempt inside `_handle_bot_crash` sees: the fresh
`BotRunner`'s environment plus the stop/start times of that attempt. -/
structure AttemptEnv where
  start : StartEnv := {}
  stopRaises : Bool := false
  tStop : Nat := 0
  tStart : Nat := 0

/-- Result of a monitor-side crash handler run. -/
structure CrashRun where
  gw : GatewayState
  st : Store
  events : List MonEvent
  succeeded : Bool
deriving DecidableEq

/-- The success-path notification of `_handle_bot_crash`: a warning-level
webhook message, only when the config carries a `webhook_url`. -/
def successNotify (cfg : BotConfig) : List MonEvent :=
  match cfg.webhook_url with
  | some url => [MonEvent.notify url "warning"]
  | none => []

/-- The `for attempt in range(max_retries)` loop of
`BotMonitor._handle_bot_crash`, with `remaining` iterations left (so the
current index is `max_retries - remaining`). A successful
`runner.restart_bot` notifies and ends the loop; a failed one sleeps
`retry_delay * 2 ^ attempt`, but only when another attempt follows. -/
def crash_retry_loop (envs : Nat → AttemptEnv) (name : String) (cfg : BotConfig)
    (max_retries retry_delay : Nat) :
    Nat → GatewayState → Store → CrashRun
  | 0, gw, st => ⟨gw, st, [], false⟩
  | remaining + 1, gw, st =>
    let attempt := max_retries - (remaining + 1)
    let e := envs attempt
    let r := restart_bot e.start e.stopRaises gw st name e.tStop e.tStart
    if r.2.2 then
      ⟨r.1, r.2.1, MonEvent.attempt attempt :: successNotify cfg, true⟩
    else
      let sleeps : List MonEvent :=
        if attempt < max_retries - 1 then [MonEvent.sleepFor (retry_delay * 2 ^ attempt)] else []
      let rest := crash_retry_loop envs name cfg max_retries retry_delay remaining r.1 r.2.1
      ⟨rest.gw, rest.st, MonEvent.attempt attempt :: sleeps ++ rest.events, rest.succeeded⟩

/-- `BotMonitor._handle_bot_crash`: up to `max_retries` (default 3)
restart attempts through a fresh `BotRunner`, exponential backoff
`retry_delay` (default 60) times `2 ^ attempt` between attempts;
exhaustion is reported at severity `error` when a `webhook_url` is
configured, and the loop itself never touches the record beyond what the
attempted restarts write. -/
def handle_bot_crash (envs : Nat → AttemptEnv) (gw : GatewayState) (st : Store)
    (name : String) (cfg : BotConfig) : CrashRun :=
  let max_retries := cfg.max_retries.getD 3
  let retry_delay := cfg.retry_delay.getD 60
  let run := crash_retry_loop envs name cfg max_retries retry_delay max_retries gw st
  if run.succeeded then run
  else
    match cfg.webhook_url with
    | some url => { run with events := run.events ++ [MonEvent.notify url "error"] }
    | none => run

/-- The status update `_handle_container_crash` writes before invoking
any restart: status `crashed`, `crashed_at = now`, and the
gateway-reported exit code (default -1 when the attribute is missing). -/
def markCrashed (st : Store) (name : String) (exitCode : Option Int) (now : Nat) : Store :=
  updateBots st name (fun r =>
    { r with status := "crashed", crashed_at := some now,
             exit_code := some (exitCode.getD (-1)) })

/-- `BotMonitor._handle_container_crash`: a no-op unless a stored record
exists and is still marked `running`; otherwise first mark it `crashed`
(see `markCrashed`), and only then run `_handle_bot_crash` when
`restart_on_crash` (default true) holds. -/
def handle_container_crash (envs : Nat → AttemptEnv) (gw : GatewayState)
    (st : Store) (name : String) (exitCode : Option Int) (now : Nat) : CrashRun :=
  match getBot st name with
  | none => ⟨gw, st, [], false⟩
  | some b =>
    if b.status != "running" then ⟨gw, st, [], false⟩
    else
      let st1 := markCrashed st name exitCode now
      if b.config.restart_on_crash.getD true then
        handle_bot_crash envs gw st1 name b.config
      else ⟨gw, st1, [], false⟩

/-- A container as the `_monitor_crashes` sweep sees it: owning bot name
(the `t10_` tag stripped), docker status string, reported exit code. -/
structure SweepContainer where
  bot : String
  status : String
  exitCode : Option Int := none
deriving DecidableEq

/-- The body of the `_monitor_crashes` sweep for one supervisor-tagged
container: only `exited` or `dead` containers are handed to
`_handle_container_crash`, everything else is skipped. -/
def crash_sweep_step (envs : Nat → AttemptEnv) (gw : GatewayState) (st : Store)
    (c : SweepContainer) (now : Nat) : CrashRun :=
  if c.status == "exited" || c.status == "dead" then
    handle_container_crash envs gw st c.bot c.exitCode now
  else ⟨gw, st, [], false⟩

/-! ## Interval Scheduler (`BotScheduler`) -/

/-- `BotScheduler.add_schedule`: an invalid interval fails without
touching the table; otherwise the ScheduleRecord is upserted, one per
bot, `last_run` reset to `None`. -/
def add_schedule (ss : SStore) (bot_name schedule_time : String) (now : Nat) :
    SStore × Bool :=
  match parse_interval schedule_time with
  | none => (ss, false)
  | some interval =>
    let record : ScheduleRecord :=
      { bot_name := bot_name, schedule_time := schedule_time,
        interval_minutes := interval, created_at := now }
    if ss.any (fun r => r.bot_name == bot_name) then
      (ss.map (fun r => if r.bot_name == bot_name then record else r), true)
    else
      (ss ++ [record], true)

/-- `BotScheduler.remove_schedule`: delete the row and report whether
one existed; the broad `except` handler maps any store error to `False`,
the same value returned when no schedule existed. -/
def remove_schedule (ioError : Bool) (ss : SStore) (bot_name : String) :
    SStore × Bool :=
  if ioError then (ss, false)
  else
    (ss.filter (fun r => r.bot_name != bot_name),
     ss.any (fun r => r.bot_name == bot_name))

/-- `BotScheduler._calculate_next_run`: `Soon` before the first trigger
(Python's falsy test also sends a zero timestamp or interval here),
`Overdue` when the next run time has passed, else a days/hours/minutes
bucket. Display only. -/
def calculate_next_run (record : ScheduleRecord) (now : Nat) : String :=
  if record.last_run.getD 0 == 0 || record.interval_minutes == 0 then "Soon"
  else
    let next := record.last_run.getD 0 + record.interval_minutes * 60
    if next ≤ now then "Overdue"
    else
      let tu := next - now
      if tu ≥ 86400 then "In " ++ toString (tu / 86400) ++ "d"
      else if tu ≥ 3600 then "In " ++ toString (tu / 3600) ++ "h"
      else "In " ++ toString (tu / 60) ++ "m"

/-- Rows of the projection `BotScheduler.list_schedules` returns. -/
structure ScheduleInfo where
  bot_name : String
  schedule_time : String
  last_run : Option Nat
  next_run : String
deriving DecidableEq

/-- `BotScheduler.list_schedules`: project every row; the broad `except`
handler turns any store error into the empty list. -/
def list_schedules (ioError : Bool) (ss : SStore) (now : Nat) : List ScheduleInfo :=
  if ioError then []
  else ss.map (fun r =>
    { bot_name := r.bot_name, schedule_time := r.schedule_time,
      last_run := r.last_run, next_run := calculate_next_run r now })

/-- Scheduler-side trigger events. -/
inductive SchedEvent
  | restartTriggered (bot : String)
deriving DecidableEq

/-- Outcome of the `runner.restart_bot` call the scheduler thread makes
on its private event loop: `some b` a normal return, `none` a raised
exception. `BotScheduler._restart_bot` only logs either one. -/
abbrev RunnerOutcome := Option Bool

/-- `BotScheduler._restart_bot`: set `last_run = now` on the schedule
row, then run `BotRunner.restart_bot`; the result is logged and any
exception caught, so nothing is reported back to the caller. -/
def sched_restart_bot (runnerOutcome : RunnerOutcome) (ss : SStore)
    (bot_name : String) (now : Nat) : SStore × List SchedEvent :=
  let ss1 := ss.map (fun r =>
    if r.bot_name == bot_name then { r with last_run := some now } else r)
  let _ := runnerOutcome
  (ss1, [SchedEvent.restartTriggered bot_name])

/-- `BotScheduler.force_run_schedule`: fails exactly when no
ScheduleRecord exists for the bot; otherwise `_restart_bot` runs
immediately, with no check of the elapsed interval, and `True` is
returned whatever the triggered restart did. -/
def force_run_schedule (runnerOutcome : RunnerOutcome) (ss : SStore)
    (bot_name : String) (now : Nat) : SStore × List SchedEvent × Bool :=
  match ss.find? (fun r => r.bot_name == bot_name) with
  | none => (ss, [], false)
  | some _ =>
    let r := sched_restart_bot runnerOutcome ss bot_name now
    (r.1, r.2, true)

/-! ## Concurrency model of the restart path

`BotRunner.restart_bot` holds no lock of any kind: the monitor loops,
the scheduler thread (which runs `_restart_bot` on its own event loop in
a separate OS thread) and the git-watcher all construct their own
`BotRunner` and call `restart_bot` directly, so the gateway calls of two
concurrent restart sequences for the same bot interleave freely. -/

/-- Docker calls one full restart sequence makes, in source order:
`stop_bot` stops and removes the old container, `start_bot` builds and
runs the new one. -/
inductive GwCall
  | stopCall (bot : String)
  | removeCall (bot : String)
  | buildCall (bot : String)
  | runCall (bot : String)
deriving DecidableEq

/-- The gateway call sequence of one `restart_bot` invocation. -/
def restartGatewayCalls (bot : String) : List GwCall :=
  [GwCall.stopCall bot, GwCall.removeCall bot, GwCall.buildCall bot, GwCall.runCall bot]

/-- `zs` is an interleaving of `xs` and `ys`: each step of the trace is
taken by one of the two concurrent executions, in its own program
order. Because the source takes no per-bot lock, every interleaving of
two restart sequences is reachable. -/
inductive Interleaving {α : Type} : List α → List α → List α → Prop
  | nil : Interleaving [] [] []
  | left {x : α} {xs ys zs : List α} :
      Interleaving xs ys zs → Interleaving (x :: xs) ys (x :: zs)
  | right {y : α} {xs ys zs : List α} :
      Interleaving xs ys zs → Interleaving xs (y :: ys) (y :: zs)

/-! ## Supervisor operation sequences (for the `started_at` invariant) -/

/-- One public Supervisor operation with its environment. -/
inductive SupOp
  | startOp (env : StartEnv) (now : Nat)
  | stopOp (stopRaises : Bool) (now : Nat)
  | restartOp (env : StartEnv) (stopRaises : Bool) (tStop tStart : Nat)

/-- Run one Supervisor operation on the bot `name`. -/
def runOp (name : String) (op : SupOp) (s : GatewayState × Store) :
    GatewayState × Store :=
  match op with
  | SupOp.startOp env now =>
    let r := start_bot env s.1 s.2 name now
    (r.1, r.2.1)
  | SupOp.stopOp sr now =>
    let r := stop_bot sr s.1 s.2 name now
    (r.1, r.2.1)
  | SupOp.restartOp env sr t1 t2 =>
    let r := restart_bot env sr s.1 s.2 name t1 t2
    (r.1, r.2.1)

/-- Run a sequence of Supervisor operations from a given state. -/
def runOps (name : String) (ops : List SupOp) (s : GatewayState × Store) :
    GatewayState × Store :=
  ops.foldl (fun acc op => runOp name op acc) s

/-! ## Helper lemmas -/

theorem mem_updateBots {st : Store} {name : String} {f : BotRecord → BotRecord}
    {b : BotRecord} (hb : b ∈ updateBots st name f) :
    ∃ a ∈ st, b = if a.name == name then f a else a := by
  simp only [updateBots, List.mem_map] at hb
  obtain ⟨a, ha, rfl⟩ := hb
  exact ⟨a, ha, rfl⟩

theorem updateBots_stopped_status {st : Store} {name : String} {t : Nat} {b : BotRecord}
    (hb : b ∈ updateBots st name
      (fun r => { r with status := "stopped", stopped_at := some t }))
    (hn : b.name = name) : b.status = "stopped" ∧ b.stopped_at = some t := by
  obtain ⟨a, _, rfl⟩ := mem_updateBots hb
  by_cases h : a.name == name
  · simp [h]
  · simp only [h, if_false] at hn
    exact absurd hn (by simpa using h)

theorem parse_interval_eq_none {s : String} (h : parse_schedule_time s = none) :
    parse_interval s = none := by
  simp [parse_interval, h]

theorem matchScheduleChars_all_digits {cs : List Char}
    (h : cs.all Char.isDigit = true) : matchScheduleChars cs = none := by
  have hspan : cs.span Char.isDigit = (cs, []) := by
    rw [List.span_eq_take_drop]
    rw [List.takeWhile_eq_self_iff.mpr (by simpa [List.all_eq_true] using h),
      List.dropWhile_eq_nil_iff.mpr (by simpa [List.all_eq_true] using h)]
  cases cs with
  | nil => rfl
  | cons c rest =>
    unfold matchScheduleChars
    rw [hspan]
    simp

theorem matchScheduleChars_dash {cs : List Char} :
    matchScheduleChars ('-' :: cs) = none := by
  have hspan : ('-' :: cs).span Char.isDigit = ([], '-' :: cs) := by
    rw [List.span_eq_take_drop]
    simp [List.takeWhile, List.dropWhile]
  unfold matchScheduleChars
  rw [hspan]
  simp

/-! ## Claims -/

/-- C3: `parse_interval` (the `_parse_schedule_time` parse combined with
the `if not interval` validation of `add_schedule`) maps "2h" to 120,
"30m" to 30, "1d" to 1440 and "2.5h" to 150; fractional minutes truncate
("2.9m" is 2, not 3); "abc", "0m" and "-1h" are invalid; every accepted
input yields a positive minute count; a digits-only input (missing unit)
and an input whose stripped lower-cased form starts with a minus sign are
invalid. -/
theorem c3_parse_interval :
    parse_interval "2h" = some 120 ∧ parse_interval "30m" = some 30 ∧
    parse_interval "1d" = some 1440 ∧ parse_interval "2.5h" = some 150 ∧
    parse_interval "2.9m" = some 2 ∧
    parse_interval "abc" = none ∧ parse_interval "0m" = none ∧
    parse_interval "-1h" = none ∧
    (∀ s n, parse_interval s = some n → 0 < n) ∧
    (∀ s, (stripChars (s.data.map Char.toLower)).all Char.isDigit = true →
      parse_interval s = none) ∧
    (∀ s rest, stripChars (s.data.map Char.toLower) = '-' :: rest →
      parse_interval s = none) := by
  refine ⟨by decide, by decide, by decide, by decide, by decide, by decide, by decide,
    by decide, ?_, ?_, ?_⟩
  · intro s n h
    unfold parse_interval at h
    cases hp : parse_schedule_time s with
    | none => rw [hp] at h; exact absurd h (by simp)
    | some m =>
      rw [hp] at h
      cases m with
      | zero => exact absurd h (by simp)
      | succ k => simp at h; omega
  · intro s hall
    exact parse_interval_eq_none (matchScheduleChars_all_digits hall)
  · intro s rest hrest
    refine parse_interval_eq_none ?_
    unfold parse_schedule_time
    rw [hrest]
    exact matchScheduleChars_dash

/-- C3 witness: the positivity clause applied at "2h". -/
theorem c3_parse_interval_witness :
    parse_interval "2h" = some 120 ∧ 0 < 120 :=
  ⟨c3_parse_interval.1, c3_parse_interval.2.2.2.2.2.2.2.2.1 "2h" 120 (by decide)⟩

/-- Concrete bots table used for counterexamples. -/
def c9Bots : Store :=
  [{ name := "alpha", status := "running", started_at := some 3 }]

/-- Concrete schedules table used for counterexamples. -/
def c9Scheds : SStore :=
  [{ bot_name := "alpha", schedule_time := "2h", interval_minutes := 120,
     created_at := 0 }]

/-- C9 counterexample: an I/O error on the backing store during
`list_bots`, `list_schedules` or `remove_schedule` is converted into the
default return value — the result is identical to a successful call on an
empty store (empty list) or on a store without that schedule (`False`),
so the error is not surfaced to the caller. -/
theorem c9_counterexample :
    list_bots true c9Bots 100 = [] ∧
    list_bots true c9Bots 100 = list_bots false [] 100 ∧
    list_schedules true c9Scheds 100 = list_schedules false [] 100 ∧
    (remove_schedule true c9Scheds "alpha").2 = false ∧
    (remove_schedule true c9Scheds "alpha").2 = (remove_schedule false [] "alpha").2 := by
  decide

/-- C9 amended: the broad `except` handlers inside `list_bots`,
`list_schedules` and `remove_schedule` catch a store I/O error, log it,
and return the default value (empty list, or `False` with the table
untouched); the error is never surfaced to the caller. -/
theorem c9_swallowed_defaults (st : Store) (ss : SStore) (name : String) (now : Nat) :
    list_bots true st now = [] ∧
    list_schedules true ss now = [] ∧
    remove_schedule true ss name = (ss, false) :=
  ⟨rfl, rfl, rfl⟩

/-- The interleaved gateway trace exhibiting the C1 race. -/
def racedTrace : List GwCall :=
  [GwCall.stopCall "alpha", GwCall.stopCall "alpha", GwCall.removeCall "alpha",
   GwCall.removeCall "alpha", GwCall.buildCall "alpha", GwCall.buildCall "alpha",
   GwCall.runCall "alpha", GwCall.runCall "alpha"]

/-- C1: the supervisor takes no per-bot restart lock, so two concurrent
restart triggers for the same bot name can interleave their full
stop/remove/build/run gateway sequences: the gateway receives two
stop+run pairs for "alpha" in one window, with the second lifecycle's
calls interleaved into the first — the claimed mutual exclusion does not
hold in the code. -/
theorem c1_interleaved_lifecycles :
    Interleaving (restartGatewayCalls "alpha") (restartGatewayCalls "alpha") racedTrace ∧
    racedTrace.count (GwCall.runCall "alpha") = 2 ∧
    racedTrace.count (GwCall.stopCall "alpha") = 2 ∧
    racedTrace ≠ restartGatewayCalls "alpha" ++ restartGatewayCalls "alpha" := by
  refine ⟨?_, by decide, by decide, by decide⟩
  exact .left (.right (.left (.right (.left (.right (.left (.right .nil)))))))

/-- C5: `stop_bot` is idempotent. A NotFound container answer is treated
as already stopped (the call still succeeds); whether or not a live
container existed, every stored record of that name is set to `stopped`
with `stopped_at = now`; and a second consecutive stop succeeds again and
converges to the same `stopped` state. (`stopRaises = false`: the
gateway reports no hard error, the NotFound path is covered by `gw`.) -/
theorem c5_stop_idempotent (gw : GatewayState) (st : Store) (name : String)
    (t1 t2 : Nat) :
    (stop_bot false gw st name t1).2.2 = true ∧
    (∀ b ∈ (stop_bot false gw st name t1).2.1, b.name = name →
      b.status = "stopped" ∧ b.stopped_at = some t1) ∧
    (stop_bot false (stop_bot false gw st name t1).1
      (stop_bot false gw st name t1).2.1 name t2).2.2 = true ∧
    (∀ b ∈ (stop_bot false (stop_bot false gw st name t1).1
        (stop_bot false gw st name t1).2.1 name t2).2.1, b.name = name →
      b.status = "stopped" ∧ b.stopped_at = some t2) ∧
    (stop_bot false ⟨none⟩ st name t1).2.2 = true := by
  cases hc : gw.container with
  | none =>
    refine ⟨by simp [stop_bot, hc], ?_, by simp [stop_bot, hc], ?_, by simp [stop_bot]⟩
    · intro b hb hn
      simp only [stop_bot, hc] at hb
      exact updateBots_stopped_status hb hn
    · intro b hb hn
      simp only [stop_bot, hc] at hb
      exact updateBots_stopped_status hb hn
  | some cst =>
    refine ⟨by simp [stop_bot, hc], ?_, by simp [stop_bot, hc], ?_, by simp [stop_bot]⟩
    · intro b hb hn
      simp only [stop_bot, hc, if_false, Bool.false_eq_true] at hb
      exact updateBots_stopped_status hb hn
    · intro b hb hn
      simp only [stop_bot, hc, if_false, Bool.false_eq_true] at hb
      exact updateBots_stopped_status hb hn

/-- C5 witness: both stops succeed on a live container and on the
already-stopped second call; the record ends `stopped`. -/
theorem c5_stop_idempotent_witness :
    (stop_bot false ⟨some "running"⟩ c9Bots "alpha" 7).2.2 = true ∧
    ({ name := "alpha", status := "stopped", started_at := some 3,
       stopped_at := some 7 } : BotRecord).status = "stopped" ∧
    ({ name := "alpha", status := "stopped", started_at := some 3,
       stopped_at := some 7 } : BotRecord).stopped_at = some 7 := by
  have h := c5_stop_idempotent ⟨some "running"⟩ c9Bots "alpha" 7 9
  have hm := h.2.1
    { name := "alpha", status := "stopped", started_at := some 3, stopped_at := some 7 }
    (by decide) rfl
  exact ⟨h.1, hm.1, hm.2⟩

/-- C7: `force_run_schedule` fails exactly when no ScheduleRecord exists
for the bot; when one exists it returns success, immediately triggers the
restart (one `restartTriggered` event, before any interval could elapse:
`ss` and `now` are arbitrary, so the result is independent of `last_run`
and `interval_minutes`), and sets the schedule's `last_run` to the
current time. -/
theorem c7_force_run (out : RunnerOutcome) (ss : SStore) (name : String) (now : Nat) :
    (ss.find? (fun r => r.bot_name == name) = none →
      force_run_schedule out ss name now = (ss, [], false)) ∧
    (∀ r0, ss.find? (fun r => r.bot_name == name) = some r0 →
      (force_run_schedule out ss name now).2.2 = true ∧
      (force_run_schedule out ss name now).2.1 = [SchedEvent.restartTriggered name] ∧
      (∀ r ∈ (force_run_schedule out ss name now).1, r.bot_name = name →
        r.last_run = some now)) := by
  constructor
  · intro h
    simp [force_run_schedule, h]
  · intro r0 h
    refine ⟨by simp [force_run_schedule, h], by simp [force_run_schedule, h, sched_restart_bot], ?_⟩
    intro r hr hname
    simp only [force_run_schedule, h, sched_restart_bot] at hr
    simp only [List.mem_map] at hr
    obtain ⟨a, _, rfl⟩ := hr
    by_cases ha : a.bot_name == name
    · simp [ha]
    · rw [if_neg (by simpa using ha)] at hname ⊢
      exact absurd hname (by simpa using ha)

/-- C7 witness: with a schedule present, a forced run succeeds and writes
`last_run = 42`. -/
theorem c7_force_run_witness :
    (force_run_schedule (some true) c9Scheds "alpha" 42).2.2 = true ∧
    (force_run_schedule (some true) c9Scheds "alpha" 42).2.1 =
      [SchedEvent.restartTriggered "alpha"] ∧
    ({ bot_name := "alpha", schedule_time := "2h", interval_minutes := 120,
       created_at := 0, last_run := some 42 } : ScheduleRecord).last_run = some 42 := by
  have h := (c7_force_run (some true) c9Scheds "alpha" 42).2
    { bot_name := "alpha", schedule_time := "2h", interval_minutes := 120, created_at := 0 }
    (by decide)
  refine ⟨h.1, h.2.1, ?_⟩
  exact h.2.2
    { bot_name := "alpha", schedule_time := "2h", interval_minutes := 120,
      created_at := 0, last_run := some 42 }
    (by decide) rfl

/-- C10: the result of `force_run_schedule` does not depend on the
outcome of the triggered restart (normal failure or raised exception are
both swallowed inside `_restart_bot`); it returns `True` exactly when a
ScheduleRecord exists, so success only means a schedule existed. -/
theorem c10_force_run_outcome (out1 out2 : RunnerOutcome) (ss : SStore)
    (name : String) (now : Nat) :
    force_run_schedule out1 ss name now = force_run_schedule out2 ss name now ∧
    ((ss.find? (fun r => r.bot_name == name)).isSome = true →
      (force_run_schedule out1 ss name now).2.2 = true) ∧
    ((force_run_schedule out1 ss name now).2.2 = true →
      (ss.find? (fun r => r.bot_name == name)).isSome = true) := by
  cases h : ss.find? (fun r => r.bot_name == name) with
  | none => refine ⟨by simp [force_run_schedule, h], by simp [h], by simp [force_run_schedule, h]⟩
  | some r0 => refine ⟨by simp [force_run_schedule, h, sched_restart_bot],
      by simp [force_run_schedule, h], by simp [h]⟩

/-- C10 witness: a forced run whose triggered restart raised
(`outcome = none`) still reports success. -/
theorem c10_force_run_outcome_witness :
    (force_run_schedule none c9Scheds "alpha" 42).2.2 = true :=
  (c10_force_run_outcome none (some false) c9Scheds "alpha" 42).2.1 (by decide)

/-- The forward half of the spec's `started_at` invariant: every record
whose status is `running` or `starting` carries a start timestamp. -/
def startedAtInv (st : Store) : Prop :=
  ∀ b ∈ st, (b.status = "running" ∨ b.status = "starting") → b.started_at.isSome = true

theorem startedAtInv_stop_update {st : Store} {name : String} {t : Nat}
    (h : startedAtInv st) :
    startedAtInv (updateBots st name
      (fun r => { r with status := "stopped", stopped_at := some t })) := by
  intro b hb hs
  obtain ⟨a, ha, rfl⟩ := mem_updateBots hb
  by_cases hna : a.name == name
  · rw [if_pos hna] at hs
    simp at hs
  · rw [if_neg hna] at hs ⊢
    exact h a ha hs

theorem startedAtInv_update_record {st : Store} {name : String} {cfg : BotConfig}
    {now : Nat} (h : startedAtInv st) :
    startedAtInv (update_bot_record st name "running" cfg now) := by
  intro b hb _
  unfold update_bot_record at hb
  by_cases hex : st.any (fun r => r.name == name)
  · rw [if_pos hex] at hb
    obtain ⟨a, ha, rfl⟩ := mem_updateBots hb
    by_cases hna : a.name == name
    · rw [if_pos hna]
      rfl
    · rw [if_neg hna]
      rename_i hs
      rw [if_neg hna] at hs
      exact h a ha hs
  · rw [if_neg hex] at hb
    rcases List.mem_append.mp hb with hin | hin
    · rename_i hs
      exact h b hin hs
    · rw [List.mem_singleton.mp hin]
      rfl

theorem startedAtInv_stop_bot {sr : Bool} {gw : GatewayState} {st : Store}
    {name : String} {now : Nat} (h : startedAtInv st) :
    startedAtInv (stop_bot sr gw st name now).2.1 := by
  unfold stop_bot
  cases gw.container with
  | none => exact startedAtInv_stop_update h
  | some c =>
    by_cases hsr : sr = true
    · simpa [hsr] using h
    · simp only [Bool.not_eq_true] at hsr
      simpa [hsr] using startedAtInv_stop_update h

theorem startedAtInv_start_bot {e : StartEnv} {gw : GatewayState} {st : Store}
    {name : String} {now : Nat} (h : startedAtInv st) :
    startedAtInv (start_bot e gw st name now).2.1 := by
  unfold start_bot
  cases e.configFile with
  | none => split <;> exact h
  | some cfg =>
    repeat' split
    all_goals first
      | exact h
      | exact startedAtInv_update_record h

theorem startedAtInv_runOp {name : String} {op : SupOp} {s : GatewayState × Store}
    (h : startedAtInv s.2) : startedAtInv (runOp name op s).2 := by
  cases op with
  | startOp env now => exact startedAtInv_start_bot h
  | stopOp sr now => exact startedAtInv_stop_bot h
  | restartOp env sr t1 t2 => exact startedAtInv_start_bot (startedAtInv_stop_bot h)

/-- C8 amended: after any sequence of Supervisor operations (start,
stop, restart) from a state satisfying it, every BotRecord with status
`running` or `starting` has `started_at` set. Only this forward direction
of the claimed iff holds: see the counterexample for the converse. -/
theorem c8_started_at_forward (name : String) (ops : List SupOp)
    (s : GatewayState × Store) (hInv : startedAtInv s.2) :
    startedAtInv (runOps name ops s).2 := by
  induction ops generalizing s with
  | nil => exact hInv
  | cons op rest ih =>
    have hstep : runOps name (op :: rest) s = runOps name rest (runOp name op s) := rfl
    rw [hstep]
    exact ih _ (startedAtInv_runOp hInv)

/-- C8 witness: a successful start from the empty store leaves a
`running` record whose `started_at` is set. -/
theorem c8_started_at_forward_witness :
    ({ name := "alpha", status := "running", started_at := some 5 } :
      BotRecord).started_at.isSome = true :=
  c8_started_at_forward "alpha" [SupOp.startOp {} 5] (⟨none⟩, []) (by intro b hb; cases hb)
    { name := "alpha", status := "running", started_at := some 5 }
    (by decide) (Or.inl rfl)

/-- Restart-attempt events of a monitor trace. -/
def isAttemptEvent : MonEvent → Bool
  | MonEvent.attempt _ => true
  | _ => false

/-- Notifications of a monitor trace. -/
def isNotifyEvent : MonEvent → Bool
  | MonEvent.notify _ _ => true
  | _ => false

/-- Number of restart attempts recorded in a monitor trace. -/
def countAttempts (evs : List MonEvent) : Nat := evs.countP isAttemptEvent

/-- Start environments under which `start_bot` fails (and leaves the
store untouched) against any gateway and store: some pre-flight check or
the docker build+run fails. -/
def startEnvFails (e : StartEnv) : Bool :=
  !e.botDirExists || e.configFile.isNone || !e.envFileExists ||
    (e.token.isSome && !e.tokenValid) || !e.dockerfileExists || !e.dockerRunOk

theorem start_bot_fails {e : StartEnv} (he : startEnvFails e = true)
    (gw : GatewayState) (st : Store) (name : String) (now : Nat) :
    (start_bot e gw st name now).2.1 = st ∧ (start_bot e gw st name now).2.2 = false := by
  unfold start_bot
  cases hcf : e.configFile with
  | none => split <;> exact ⟨rfl, rfl⟩
  | some cfg =>
    simp only [startEnvFails, hcf, Bool.or_eq_true, Bool.and_eq_true,
      Bool.not_eq_true', Option.isNone_iff_eq_none, Option.isSome_iff_ne_none] at he
    repeat' split
    all_goals simp_all

theorem stop_bot_false_store (gw : GatewayState) (st : Store) (name : String)
    (now : Nat) :
    (stop_bot false gw st name now).2.1 =
      updateBots st name (fun r => { r with status := "stopped", stopped_at := some now }) := by
  obtain ⟨c⟩ := gw
  cases c <;> rfl

/-- Store contents after one failing restart attempt: the stop phase
marked every record of that name `stopped`, the failing start left the
store alone. -/
theorem restart_bot_fail_store {e : StartEnv} (he : startEnvFails e = true)
    (gw : GatewayState) (st : Store) (name : String) (t1 t2 : Nat) :
    (restart_bot e false gw st name t1 t2).2.1 =
      updateBots st name (fun r => { r with status := "stopped", stopped_at := some t1 }) ∧
    (restart_bot e false gw st name t1 t2).2.2 = false := by
  simp only [restart_bot]
  rw [stop_bot_false_store]
  exact start_bot_fails he _ _ name t2

theorem crash_retry_loop_all_fail (envs : Nat → AttemptEnv) (name : String)
    (cfg : BotConfig) (mr rd : Nat)
    (hf : ∀ k, (envs k).stopRaises = false ∧ startEnvFails (envs k).start = true) :
    ∀ remaining, ∀ gw : GatewayState, ∀ st : Store,
      (crash_retry_loop envs name cfg mr rd remaining gw st).succeeded = false ∧
      countAttempts (crash_retry_loop envs name cfg mr rd remaining gw st).events =
        remaining ∧
      (0 < remaining →
        ∀ b ∈ (crash_retry_loop envs name cfg mr rd remaining gw st).st,
          b.name = name → b.status = "stopped") := by
  intro remaining
  induction remaining with
  | zero =>
    intro gw st
    exact ⟨rfl, rfl, fun h => absurd h (by omega)⟩
  | succ rem ih =>
    intro gw st
    obtain ⟨hsr, hsf⟩ := hf (mr - (rem + 1))
    have hr := restart_bot_fail_store hsf gw st name
      (envs (mr - (rem + 1))).tStop (envs (mr - (rem + 1))).tStart
    simp only [crash_retry_loop, hsr]
    rw [hr.2, hr.1]
    set st1 := updateBots st name
      (fun r => { r with status := "stopped", stopped_at := some (envs (mr - (rem + 1))).tStop })
      with hst1
    simp only [Bool.false_eq_true, if_false]
    have ihr := ih (restart_bot (envs (mr - (rem + 1))).start false gw st name
      (envs (mr - (rem + 1))).tStop (envs (mr - (rem + 1))).tStart).1 st1
    refine ⟨ihr.1, ?_, ?_⟩
    · simp only [countAttempts, List.countP_cons, List.countP_append]
      have h1 : (List.countP isAttemptEvent
          (if mr - (rem + 1) < mr - 1
            then [MonEvent.sleepFor (rd * 2 ^ (mr - (rem + 1)))] else [])) = 0 := by
        split <;> rfl
      have h2 := ihr.2.1
      simp only [countAttempts] at h2
      simp [h1, h2, isAttemptEvent] <;> omega
    · intro _ b hb hbn
      cases rem with
      | zero =>
        simp only [crash_retry_loop] at hb
        exact (updateBots_stopped_status hb hbn).1
      | succ rem2 => exact ihr.2.2 (by omega) b hb hbn

theorem crash_retry_loop_attempt_count (envs : Nat → AttemptEnv) (name : String)
    (cfg : BotConfig) (mr rd : Nat) :
    ∀ remaining, ∀ gw : GatewayState, ∀ st : Store,
      countAttempts (crash_retry_loop envs name cfg mr rd remaining gw st).events ≤
        remaining := by
  intro remaining
  induction remaining with
  | zero => intro gw st; exact Nat.le_refl 0
  | succ rem ih =>
    intro gw st
    simp only [crash_retry_loop]
    set r := restart_bot (envs (mr - (rem + 1))).start (envs (mr - (rem + 1))).stopRaises
      gw st name (envs (mr - (rem + 1))).tStop (envs (mr - (rem + 1))).tStart with hrdef
    split
    · cases hu : cfg.webhook_url <;>
        simp [countAttempts, List.countP_cons, successNotify, hu, isAttemptEvent]
    · simp only [countAttempts, List.countP_cons, List.countP_append]
      have h1 : (List.countP isAttemptEvent
          (if mr - (rem + 1) < mr - 1
            then [MonEvent.sleepFor (rd * 2 ^ (mr - (rem + 1)))] else [])) = 0 := by
        split <;> rfl
      have h2 := ih r.1 r.2.1
      simp only [countAttempts] at h2
      simp [h1, isAttemptEvent] <;> omega

theorem crash_retry_loop_attempt_lt (envs : Nat → AttemptEnv) (name : String)
    (cfg : BotConfig) (mr rd : Nat) :
    ∀ remaining, remaining ≤ mr → ∀ gw : GatewayState, ∀ st : Store, ∀ k,
      MonEvent.attempt k ∈ (crash_retry_loop envs name cfg mr rd remaining gw st).events →
      k < mr := by
  intro remaining
  induction remaining with
  | zero => intro _ gw st k hk; cases hk
  | succ rem ih =>
    intro hle gw st k hk
    simp only [crash_retry_loop] at hk
    set r := restart_bot (envs (mr - (rem + 1))).start (envs (mr - (rem + 1))).stopRaises
      gw st name (envs (mr - (rem + 1))).tStop (envs (mr - (rem + 1))).tStart with hrdef
    split at hk
    · rcases List.mem_cons.mp hk with h | h
      · cases h; omega
      · cases hu : cfg.webhook_url <;> simp [successNotify, hu] at h
    · rcases List.mem_cons.mp hk with h | h
      · cases h; omega
      · rcases List.mem_append.mp h with h2 | h2
        · by_cases hlt : mr - (rem + 1) < mr - 1
          · rw [if_pos hlt] at h2
            simp at h2
          · rw [if_neg hlt] at h2
            cases h2
        · exact ih (by omega) r.1 r.2.1 k h2

theorem crash_retry_loop_sleep_form (envs : Nat → AttemptEnv) (name : String)
    (cfg : BotConfig) (mr rd : Nat) :
    ∀ remaining, ∀ gw : GatewayState, ∀ st : Store, ∀ d,
      MonEvent.sleepFor d ∈ (crash_retry_loop envs name cfg mr rd remaining gw st).events →
      ∃ k, k + 1 < mr ∧ d = rd * 2 ^ k := by
  intro remaining
  induction remaining with
  | zero => intro gw st d hd; cases hd
  | succ rem ih =>
    intro gw st d hd
    simp only [crash_retry_loop] at hd
    set r := restart_bot (envs (mr - (rem + 1))).start (envs (mr - (rem + 1))).stopRaises
      gw st name (envs (mr - (rem + 1))).tStop (envs (mr - (rem + 1))).tStart with hrdef
    split at hd
    · rcases List.mem_cons.mp hd with h | h
      · cases h
      · cases hu : cfg.webhook_url <;> simp [successNotify, hu] at h
    · rcases List.mem_cons.mp hd with h | h
      · cases h
      · rcases List.mem_append.mp h with h2 | h2
        · by_cases hlt : mr - (rem + 1) < mr - 1
          · rw [if_pos hlt] at h2
            have h3 := List.mem_singleton.mp h2
            injection h3 with h4
            exact ⟨mr - (rem + 1), by omega, h4⟩
          · rw [if_neg hlt] at h2
            cases h2
        · exact ih r.1 r.2.1 d h2

theorem crash_retry_loop_events_ne_nil (envs : Nat → AttemptEnv) (name : String)
    (cfg : BotConfig) (mr rd : Nat) (remaining : Nat) (h : 0 < remaining)
    (gw : GatewayState) (st : Store) :
    (crash_retry_loop envs name cfg mr rd remaining gw st).events ≠ [] := by
  cases remaining with
  | zero => omega
  | succ rem =>
    simp only [crash_retry_loop]
    split <;> simp

theorem crash_retry_loop_last_not_sleep (envs : Nat → AttemptEnv) (name : String)
    (cfg : BotConfig) (mr rd : Nat) :
    ∀ remaining, ∀ gw : GatewayState, ∀ st : Store, ∀ d,
      (crash_retry_loop envs name cfg mr rd remaining gw st).events.getLast? ≠
        some (MonEvent.sleepFor d) := by
  intro remaining
  induction remaining with
  | zero => intro gw st d; simp [crash_retry_loop]
  | succ rem ih =>
    intro gw st d
    simp only [crash_retry_loop]
    set r := restart_bot (envs (mr - (rem + 1))).start (envs (mr - (rem + 1))).stopRaises
      gw st name (envs (mr - (rem + 1))).tStop (envs (mr - (rem + 1))).tStart with hrdef
    split
    · cases hu : cfg.webhook_url <;> simp [successNotify, hu]
    · cases rem with
      | zero =>
        have hsl : ¬ (mr - (0 + 1) < mr - 1) := by omega
        simp [crash_retry_loop, hsl]
      | succ rem2 =>
        have hne := crash_retry_loop_events_ne_nil envs name cfg mr rd (rem2 + 1)
          (by omega) r.1 r.2.1
        show ((MonEvent.attempt (mr - (rem2 + 1 + 1)) ::
            (if mr - (rem2 + 1 + 1) < mr - 1
              then [MonEvent.sleepFor (rd * 2 ^ (mr - (rem2 + 1 + 1)))] else [])) ++
            (crash_retry_loop envs name cfg mr rd (rem2 + 1) r.1 r.2.1).events).getLast? ≠
          some (MonEvent.sleepFor d)
        rw [List.getLast?_append_of_ne_nil _ hne]
        exact ih r.1 r.2.1 d

/-- All-failing attempt environments used for concrete traces: every
attempt's stop phase succeeds and its docker build+run fails. -/
def allFailEnvs : Nat → AttemptEnv := fun k =>
  { start := { dockerRunOk := false }, tStop := 2 * k, tStart := 2 * k + 1 }

/-- A bots table holding one crashed record, as the crash sweep leaves it
before invoking recovery. -/
def c2Store : Store :=
  [{ name := "beta", status := "crashed", crashed_at := some 1 }]

/-- The config of the C2 witness run: a webhook endpoint is configured,
everything else is at its default. -/
def c2Cfg : BotConfig := { webhook_url := some "u" }

/-- Events of `_handle_bot_crash` are the retry-loop events, possibly
followed by one exhaustion notification. -/
theorem handle_bot_crash_events (envs : Nat → AttemptEnv) (gw : GatewayState)
    (st : Store) (name : String) (cfg : BotConfig) :
    (handle_bot_crash envs gw st name cfg).events =
      (crash_retry_loop envs name cfg (cfg.max_retries.getD 3)
        (cfg.retry_delay.getD 60) (cfg.max_retries.getD 3) gw st).events ∨
    (∃ url, (handle_bot_crash envs gw st name cfg).events =
      (crash_retry_loop envs name cfg (cfg.max_retries.getD 3)
        (cfg.retry_delay.getD 60) (cfg.max_retries.getD 3) gw st).events ++
        [MonEvent.notify url "error"]) := by
  simp only [handle_bot_crash]
  split
  · exact Or.inl rfl
  · cases hu : cfg.webhook_url with
    | none => exact Or.inl rfl
    | some url => exact Or.inr ⟨url, by simp⟩

/-- C2 counterexample: a crash-restart procedure that exhausts all three
default attempts (docker run failing each time, no webhook configured)
emits no notification at all, and leaves the record with status
`stopped`, not `crashed` — each attempt's stop phase overwrote it. -/
theorem c2_counterexample :
    (handle_bot_crash allFailEnvs ⟨some "exited"⟩ c2Store "beta" {}).succeeded = false ∧
    getBot (handle_bot_crash allFailEnvs ⟨some "exited"⟩ c2Store "beta" {}).st "beta" =
      some { name := "beta", status := "stopped", stopped_at := some 4,
             crashed_at := some 1 } ∧
    ((handle_bot_crash allFailEnvs ⟨some "exited"⟩ c2Store "beta" {}).events.all
      (fun e => !isNotifyEvent e)) = true := by
  refine ⟨by decide, by decide, by decide⟩

/-- C2 amended: when every restart attempt fails (stop succeeding, start
failing), the procedure makes exactly `max_retries` attempts and stops,
ends with an error-severity notification when a `webhook_url` is
configured, and leaves every record of that bot with status `stopped` —
the stop phase of each failed attempt overwrites the `crashed` status. -/
theorem c2_exhausted_recovery (envs : Nat → AttemptEnv) (gw : GatewayState)
    (st : Store) (name url : String) (cfg : BotConfig)
    (hurl : cfg.webhook_url = some url)
    (hmr : 0 < cfg.max_retries.getD 3)
    (hf : ∀ k, (envs k).stopRaises = false ∧ startEnvFails (envs k).start = true) :
    (handle_bot_crash envs gw st name cfg).succeeded = false ∧
    (handle_bot_crash envs gw st name cfg).events.getLast? =
      some (MonEvent.notify url "error") ∧
    countAttempts (handle_bot_crash envs gw st name cfg).events =
      cfg.max_retries.getD 3 ∧
    (∀ b ∈ (handle_bot_crash envs gw st name cfg).st, b.name = name →
      b.status = "stopped") := by
  have hloop := crash_retry_loop_all_fail envs name cfg (cfg.max_retries.getD 3)
    (cfg.retry_delay.getD 60) hf (cfg.max_retries.getD 3) gw st
  simp only [handle_bot_crash, hloop.1, hurl, Bool.false_eq_true, if_false]
  refine ⟨trivial, ?_, ?_, ?_⟩
  · simp [List.getLast?_concat]
  · simp only [countAttempts, List.countP_append]
    have h2 := hloop.2.1
    simp only [countAttempts] at h2
    simp [h2, isAttemptEvent]
  · intro b hb hbn
    exact hloop.2.2 hmr b hb hbn

/-- C2 witness: concrete exhausted run with a webhook configured. -/
theorem c2_exhausted_recovery_witness :
    (handle_bot_crash allFailEnvs ⟨some "exited"⟩ c2Store "beta" c2Cfg).succeeded = false ∧
    (handle_bot_crash allFailEnvs ⟨some "exited"⟩ c2Store "beta" c2Cfg).events.getLast? =
      some (MonEvent.notify "u" "error") ∧
    countAttempts
      (handle_bot_crash allFailEnvs ⟨some "exited"⟩ c2Store "beta" c2Cfg).events = 3 ∧
    ({ name := "beta", status := "stopped", stopped_at := some 4,
       crashed_at := some 1 } : BotRecord).status = "stopped" := by
  have h := c2_exhausted_recovery allFailEnvs ⟨some "exited"⟩ c2Store "beta" "u" c2Cfg
    rfl (by decide) (fun k => ⟨rfl, rfl⟩)
  refine ⟨h.1, h.2.1, h.2.2.1, ?_⟩
  exact h.2.2.2
    { name := "beta", status := "stopped", stopped_at := some 4, crashed_at := some 1 }
    (by decide) rfl

/-- C4: the crash-restart procedure makes at most `max_retries` (default
3) attempts; every attempt index is below `max_retries` (with
`max_retries = 2` a third attempt never happens); every backoff sleep
equals `retry_delay * 2 ^ attempt` for an attempt that still has a
successor in budget; no trace ends in a sleep (sleeps happen only between
attempts, never after the last); and for `retry_delay = 60` (default),
`max_retries = 3` with all attempts failing, the trace is exactly
attempt 0, sleep 60, attempt 1, sleep 120, attempt 2. -/
theorem c4_backoff (envs : Nat → AttemptEnv) (gw : GatewayState) (st : Store)
    (name : String) (cfg : BotConfig) :
    countAttempts (handle_bot_crash envs gw st name cfg).events ≤
      cfg.max_retries.getD 3 ∧
    (∀ k, MonEvent.attempt k ∈ (handle_bot_crash envs gw st name cfg).events →
      k < cfg.max_retries.getD 3) ∧
    (∀ d, MonEvent.sleepFor d ∈ (handle_bot_crash envs gw st name cfg).events →
      ∃ k, k + 1 < cfg.max_retries.getD 3 ∧ d = cfg.retry_delay.getD 60 * 2 ^ k) ∧
    (∀ d, (handle_bot_crash envs gw st name cfg).events.getLast? ≠
      some (MonEvent.sleepFor d)) ∧
    (handle_bot_crash allFailEnvs ⟨some "exited"⟩ c2Store "beta" {}).events =
      [MonEvent.attempt 0, MonEvent.sleepFor 60, MonEvent.attempt 1,
       MonEvent.sleepFor 120, MonEvent.attempt 2] ∧
    (handle_bot_crash allFailEnvs ⟨some "exited"⟩ c2Store "beta"
        { max_retries := some 2 }).events =
      [MonEvent.attempt 0, MonEvent.sleepFor 60, MonEvent.attempt 1] := by
  rcases handle_bot_crash_events envs gw st name cfg with hev | ⟨url, hev⟩
  · refine ⟨?_, ?_, ?_, ?_, by decide, by decide⟩
    · rw [hev]
      exact crash_retry_loop_attempt_count envs name cfg _ _ _ gw st
    · intro k hk
      rw [hev] at hk
      exact crash_retry_loop_attempt_lt envs name cfg _ _ _ (Nat.le_refl _) gw st k hk
    · intro d hd
      rw [hev] at hd
      exact crash_retry_loop_sleep_form envs name cfg _ _ _ gw st d hd
    · intro d
      rw [hev]
      exact crash_retry_loop_last_not_sleep envs name cfg _ _ _ gw st d
  · refine ⟨?_, ?_, ?_, ?_, by decide, by decide⟩
    · rw [hev]
      simp only [countAttempts, List.countP_append]
      have h1 : List.countP isAttemptEvent [MonEvent.notify url "error"] = 0 := rfl
      have h2 := crash_retry_loop_attempt_count envs name cfg
        (cfg.max_retries.getD 3) (cfg.retry_delay.getD 60) (cfg.max_retries.getD 3) gw st
      simp only [countAttempts] at h2
      omega
    · intro k hk
      rw [hev] at hk
      rcases List.mem_append.mp hk with h | h
      · exact crash_retry_loop_attempt_lt envs name cfg _ _ _ (Nat.le_refl _) gw st k h
      · simp at h
    · intro d hd
      rw [hev] at hd
      rcases List.mem_append.mp hd with h | h
      · exact crash_retry_loop_sleep_form envs name cfg _ _ _ gw st d h
      · simp at h
    · intro d
      rw [hev, List.getLast?_concat]
      simp

/-- C4 witness: the bound and the attempt-index clause at the concrete
all-failing run. -/
theorem c4_backoff_witness :
    countAttempts
      (handle_bot_crash allFailEnvs ⟨some "exited"⟩ c2Store "beta" {}).events ≤ 3 ∧
    0 < 3 ∧ 1 < 3 := by
  have h := c4_backoff allFailEnvs ⟨some "exited"⟩ c2Store "beta" {}
  exact ⟨h.1, h.2.1 0 (by decide), h.2.1 1 (by decide)⟩

theorem markCrashed_status {st : Store} {name : String} {ec : Option Int} {now : Nat}
    {b : BotRecord} (hb : b ∈ markCrashed st name ec now) (hn : b.name = name) :
    b.status = "crashed" ∧ b.crashed_at = some now ∧
    b.exit_code = some (ec.getD (-1)) := by
  obtain ⟨a, _, rfl⟩ := mem_updateBots hb
  by_cases h : a.name == name
  · simp [h]
  · rw [if_neg (by simpa using h)] at hn
    exact absurd hn (by simpa using h)

/-- C6: the crash sweep hands exactly the exited/dead supervisor-tagged
containers to `_handle_container_crash`; the handler is a no-op unless a
stored record exists and is still `running`; when it acts it first
writes status `crashed` with `crashed_at` and the gateway-reported exit
code (`markCrashed`), and only then invokes the crash-restart procedure,
and only when the effective `restart_on_crash` flag (default true)
holds. -/
theorem c6_crash_detection (envs : Nat → AttemptEnv) (gw : GatewayState) (st : Store)
    (c : SweepContainer) (now : Nat) :
    (c.status ≠ "exited" → c.status ≠ "dead" →
      crash_sweep_step envs gw st c now = ⟨gw, st, [], false⟩) ∧
    (c.status = "exited" ∨ c.status = "dead" →
      crash_sweep_step envs gw st c now =
        handle_container_crash envs gw st c.bot c.exitCode now) ∧
    (getBot st c.bot = none →
      handle_container_crash envs gw st c.bot c.exitCode now = ⟨gw, st, [], false⟩) ∧
    (∀ b, getBot st c.bot = some b → b.status ≠ "running" →
      handle_container_crash envs gw st c.bot c.exitCode now = ⟨gw, st, [], false⟩) ∧
    (∀ b, getBot st c.bot = some b → b.status = "running" →
      (∀ b2 ∈ markCrashed st c.bot c.exitCode now, b2.name = c.bot →
        b2.status = "crashed" ∧ b2.crashed_at = some now ∧
        b2.exit_code = some (c.exitCode.getD (-1))) ∧
      (b.config.restart_on_crash.getD true = true →
        handle_container_crash envs gw st c.bot c.exitCode now =
          handle_bot_crash envs gw (markCrashed st c.bot c.exitCode now) c.bot b.config) ∧
      (b.config.restart_on_crash.getD true = false →
        handle_container_crash envs gw st c.bot c.exitCode now =
          ⟨gw, markCrashed st c.bot c.exitCode now, [], false⟩)) := by
  refine ⟨?_, ?_, ?_, ?_, ?_⟩
  · intro h1 h2
    simp [crash_sweep_step, h1, h2]
  · intro h
    rcases h with h | h <;> simp [crash_sweep_step, h]
  · intro h
    simp [handle_container_crash, h]
  · intro b hb hne
    simp [handle_container_crash, hb, hne]
  · intro b hb hrun
    refine ⟨fun b2 hb2 hn2 => markCrashed_status hb2 hn2, ?_, ?_⟩
    · intro hflag
      simp [handle_container_crash, hb, hrun, hflag]
    · intro hflag
      simp [handle_container_crash, hb, hrun, hflag]

/-- The container the C6 witness works on. -/
def c6Container : SweepContainer :=
  { bot := "alpha", status := "exited", exitCode := some 137 }

/-- C6 witness: an exited container of a running bot is handed to the
handler, which marks the record crashed and invokes the restart
procedure on the marked store. -/
theorem c6_crash_detection_witness :
    crash_sweep_step allFailEnvs ⟨some "exited"⟩ c9Bots c6Container 50 =
      handle_container_crash allFailEnvs ⟨some "exited"⟩ c9Bots "alpha" (some 137) 50 ∧
    handle_container_crash allFailEnvs ⟨some "exited"⟩ c9Bots "alpha" (some 137) 50 =
      handle_bot_crash allFailEnvs ⟨some "exited"⟩
        (markCrashed c9Bots "alpha" (some 137) 50) "alpha" {} := by
  have h := c6_crash_detection allFailEnvs ⟨some "exited"⟩ c9Bots c6Container 50
  refine ⟨h.2.1 (Or.inl rfl), ?_⟩
  have h5 := h.2.2.2.2 { name := "alpha", status := "running", started_at := some 3 }
    (by decide) rfl
  exact h5.2.1 rfl

/-- C8 counterexample: start then stop leaves a record whose status is
`stopped` while `started_at` is still set (`stop_bot` never clears it),
so `started_at` being set does not imply status `running`/`starting` —
the claimed iff fails on the code. -/
theorem c8_counterexample :
    (runOps "alpha" [SupOp.startOp {} 5, SupOp.stopOp false 9] (⟨none⟩, [])).2 =
      [{ name := "alpha", status := "stopped", started_at := some 5,
         stopped_at := some 9 }] ∧
    ((runOps "alpha" [SupOp.startOp {} 5, SupOp.stopOp false 9] (⟨none⟩, [])).2.all
      (fun b => b.started_at.isSome &&
        !(b.status == "running" || b.status == "starting"))) = true := by
  constructor
  · decide
  · decide

end T10
